import Mathlib

/-!
Verification of the authorization interceptor in
`common/authorization/interceptor.go` of the temporal-server excerpt.

The interceptor is embedded shallowly: the gRPC call context becomes an
explicit `Context` record (incoming metadata, peer transport state, and the
two context-value slots this package may attach); the pluggable collaborators
(claim mapper, authorizer, audience getter) become function-valued fields; and
`interceptor.Interceptor` becomes the pure function `Interceptor.run`, which
returns the response/error pair together with a full observable trace of the
call: which collaborators were invoked and with what arguments, what they
returned, which metrics events were recorded, and which errors were logged.
-/

deriving instance DecidableEq for Except

namespace TemporalAuthz

/-- `pkix.Name`: the subject distinguished name of an X.509 certificate.
Opaque to the interceptor; modelled by its rendered distinguished name. -/
structure PkixName where
  dn : String
deriving DecidableEq, Repr

/-- `x509.Certificate`, restricted to the only field the interceptor reads. -/
structure Certificate where
  Subject : PkixName
deriving DecidableEq, Repr

/-- `tls.ConnectionState`, restricted to `VerifiedChains`. -/
structure ConnectionState where
  VerifiedChains : List (List Certificate)
deriving DecidableEq, Repr

/-- `credentials.TLSInfo` as read by the interceptor. -/
structure TLSInfo where
  State : ConnectionState
deriving DecidableEq, Repr

/-- `peer.Peer` from the call context.  `AuthInfo = some ti` models the type
assertion `p.AuthInfo.(credentials.TLSInfo)` succeeding with `ti`; `none`
models a peer whose transport credentials are not TLS. -/
structure Peer where
  AuthInfo : Option TLSInfo
deriving DecidableEq, Repr

/-- `authorization.Claims`: normalized claims produced by a claim mapper.
The interceptor treats them as opaque, so they are modelled as a token. -/
structure Claims where
  token : Nat
deriving DecidableEq, Repr

/-- The per-call `context.Context`, restricted to what this package reads and
writes: incoming gRPC metadata (`metadata.FromIncomingContext`; `none` models
`ok = false`), the transport peer (`peer.FromContext`), and the two
context-value slots keyed by `MappedClaims` and `AuthHeader`.  A slot holding
`none` models a context carrying no value for that key; the `MappedClaims`
slot holds an `Option Claims` because the attached Go value is a `*Claims`
pointer that may itself be nil. -/
structure Context where
  md : Option (List (String × List String))
  peer : Option Peer
  mappedClaims : Option (Option Claims)
  authHeader : Option String
deriving DecidableEq, Repr

/-- The untyped request payload.  `getNamespaceImpl = some s` models the type
assertion `req.(hasNamespace)` succeeding with `GetNamespace() = s`; `none`
models a payload that does not expose a namespace accessor. -/
structure Request where
  payload : Nat
  getNamespaceImpl : Option String
deriving DecidableEq, Repr

/-- `grpc.UnaryServerInfo`, restricted to `FullMethod`. -/
structure UnaryServerInfo where
  FullMethod : String
deriving DecidableEq, Repr

/-- `authorization.AuthInfo`: the evidence bundle handed to the claim mapper. -/
structure AuthInfo where
  AuthToken : String
  TLSSubject : Option PkixName
  TLSConnection : Option TLSInfo
  ExtraData : String
  Audience : String
deriving DecidableEq, Repr

/-- The authorization decision enumeration (`DecisionAllow` / `DecisionDeny`). -/
inductive Decision where
  | Allow
  | Deny
deriving DecidableEq, Repr

/-- `authorization.Result`: outcome of a policy evaluation. -/
structure Result where
  Decision : Decision
  Reason : String
deriving DecidableEq, Repr

/-- `authorization.CallTarget`: the question put to the authorizer. -/
structure CallTarget where
  Namespace : String
  APIName : String
  Request : Request
deriving DecidableEq, Repr

/-- The `ClaimMapper` collaborator.  `GetClaims` returns `*Claims, error`,
modelled as `Except` over an error string and a possibly-nil pointer.
`withAuthInfoRequired = some b` models the mapper also implementing
`ClaimMapperWithAuthInfoRequired` with `AuthInfoRequired() = b`; `none`
models the type assertion failing. -/
structure ClaimMapper where
  GetClaims : AuthInfo → Except String (Option Claims)
  withAuthInfoRequired : Option Bool

/-- The `Authorizer` collaborator: `Authorize(ctx, *Claims, *CallTarget)`. -/
def Authorizer : Type :=
  Context → Option Claims → CallTarget → Except String Result

/-- The `JWTAudienceMapper` collaborator: `Audience(ctx, req, info)`. -/
def JWTAudienceMapper : Type :=
  Context → Request → UnaryServerInfo → String

/-- A metrics tag as produced by `metrics.OperationTag`,
`metrics.NamespaceTag` and `metrics.NamespaceUnknownTag`. -/
inductive MetricsTag where
  | operation (value : String)
  | namespaceTag (value : String)
  | namespaceUnknown
deriving DecidableEq, Repr

/-- An observable metrics recording: a counter increment or a timer record,
together with the tag scope of the handler it was recorded on. -/
inductive MetricsEvent where
  | counter (tags : List MetricsTag) (metricName : String) (value : Int)
  | timer (tags : List MetricsTag) (metricName : String)
deriving DecidableEq, Repr

/-- The tag scope of a metrics event. -/
def MetricsEvent.tags : MetricsEvent → List MetricsTag
  | .counter ts _ _ => ts
  | .timer ts _ => ts

/-- `metrics.AuthorizationScope`. -/
def AuthorizationScope : String := "Authorization"

/-- Modelled from the spec: the metric name constants live in the
`common/metrics` package, outside this excerpt; the spec only requires the
counters for the failure categories to be distinguishing, so the names are
modelled as distinct strings. -/
def ServiceAuthorizationLatency : String := "service_authorization_latency"

/-- Modelled from the spec: counter name for authorization-evaluation
failures (`metrics.ServiceErrAuthorizeFailedCounter`). -/
def ServiceErrAuthorizeFailedCounter : String := "service_errors_authorize_failed"

/-- Modelled from the spec: counter name for denied authorizations
(`metrics.ServiceErrUnauthorizedCounter`). -/
def ServiceErrUnauthorizedCounter : String := "service_errors_unauthorized"

/-- An RPC error value.  `permissionDenied m r` models
`serviceerror.NewPermissionDenied(m, r)`; `other` models any other error a
forwarded handler may return. -/
inductive RpcError where
  | permissionDenied (message : String) (reason : String)
  | other (message : String)
deriving DecidableEq, Repr

/-- The `RequestUnauthorized` message constant. -/
def RequestUnauthorized : String := "Request unauthorized."

/-- `errUnauthorized`: the preconstructed generic permission-denied error. -/
def errUnauthorized : RpcError := .permissionDenied RequestUnauthorized ""

/-- `defaultAuthHeaderName`. -/
def defaultAuthHeaderName : String := "authorization"

/-- `defaultAuthExtraHeaderName`. -/
def defaultAuthExtraHeaderName : String := "authorization-extras"

/-- `util.Coalesce` specialised to strings: the first non-zero value. -/
def Coalesce (s d : String) : String := if s ≠ "" then s else d

/-- The `interceptor` struct.  The metrics handler is modelled by the tag
scope it carries; the logger is modelled by the trace of logged errors in
`CallTrace`, so it has no configuration here. -/
structure Interceptor where
  authorizer : Option Authorizer
  claimMapper : Option ClaimMapper
  metricsBaseTags : List MetricsTag
  audienceGetter : Option JWTAudienceMapper
  authHeaderName : String
  authExtraHeaderName : String

/-- `NewAuthorizationInterceptor`, including the header-name defaulting. -/
def NewAuthorizationInterceptor (claimMapper : Option ClaimMapper)
    (authorizer : Option Authorizer) (metricsBaseTags : List MetricsTag)
    (audienceGetter : Option JWTAudienceMapper)
    (authHeaderName authExtraHeaderName : String) : Interceptor :=
  { claimMapper := claimMapper
    authorizer := authorizer
    metricsBaseTags := metricsBaseTags
    audienceGetter := audienceGetter
    authHeaderName := Coalesce authHeaderName defaultAuthHeaderName
    authExtraHeaderName := Coalesce authExtraHeaderName defaultAuthExtraHeaderName }

/-- `TLSInfoFormContext`: the peer's credentials when present and TLS. -/
def TLSInfoFormContext (ctx : Context) : Option TLSInfo :=
  match ctx.peer with
  | none => none
  | some p =>
    match p.AuthInfo with
    | some tlsInfo => some tlsInfo
    | none => none

/-- `PeerCert`: the leaf certificate of the first verified chain, or absence
when the TLS info is nil, has no verified chains, or the first chain is
empty. -/
def PeerCert (tlsInfo : Option TLSInfo) : Option Certificate :=
  match tlsInfo with
  | none => none
  | some ti =>
    match ti.State.VerifiedChains with
    | [] => none
    | [] :: _ => none
    | (cert :: _) :: _ => some cert

/-- Go map lookup `md[key]` on gRPC metadata: the value slice, nil (empty)
when the key is absent or there is no incoming metadata. -/
def mdValues (md : Option (List (String × List String))) (key : String) :
    List String :=
  match md with
  | some m => (m.lookup key).getD []
  | none => []

/-- `authHeaders` in `Interceptor`: the value slice of the configured primary
header name. -/
def Interceptor.authHeaderValues (a : Interceptor) (ctx : Context) :
    List String :=
  mdValues ctx.md a.authHeaderName

/-- `authExtraHeaders` in `Interceptor`. -/
def Interceptor.authExtraHeaderValues (a : Interceptor) (ctx : Context) :
    List String :=
  mdValues ctx.md a.authExtraHeaderName

/-- `tlsSubject` in `Interceptor`: the subject of the peer certificate,
when one was found. -/
def certSubjectOf (ctx : Context) : Option PkixName :=
  (PeerCert (TLSInfoFormContext ctx)).map Certificate.Subject

/-- The effective `authInfoRequired` flag: `AuthInfoRequired()` when the
mapper implements `ClaimMapperWithAuthInfoRequired`, else the default
`true`. -/
def ClaimMapper.effAuthInfoRequired (cm : ClaimMapper) : Bool :=
  match cm.withAuthInfoRequired with
  | some b => b
  | none => true

/-- The guard `tlsSubject != nil || len(authHeaders) > 0 || !authInfoRequired`
deciding whether auth info is built and the claim mapper invoked. -/
def Interceptor.shouldInvokeMapper (a : Interceptor) (cm : ClaimMapper)
    (ctx : Context) : Bool :=
  (certSubjectOf ctx).isSome || !(a.authHeaderValues ctx).isEmpty ||
    !cm.effAuthInfoRequired

/-- The `AuthInfo` literal constructed in `Interceptor`: first header values
(empty string when the slice is empty), certificate subject, TLS connection,
and the resolved audience. -/
def Interceptor.buildAuthInfo (a : Interceptor) (ctx : Context) (req : Request)
    (info : UnaryServerInfo) : AuthInfo :=
  { AuthToken := (a.authHeaderValues ctx).headD ""
    TLSSubject := certSubjectOf ctx
    TLSConnection := TLSInfoFormContext ctx
    ExtraData := (a.authExtraHeaderValues ctx).headD ""
    Audience :=
      match a.audienceGetter with
      | some g => g ctx req info
      | none => "" }

/-- The two `context.WithValue` attachments after successful mapping: the
mapped claims always, the raw primary header value only when non-empty. -/
def enrichContext (ctx : Context) (mappedClaims : Option Claims)
    (authHeader : String) : Context :=
  let ctx1 := { ctx with mappedClaims := some mappedClaims }
  if authHeader ≠ "" then { ctx1 with authHeader := some authHeader } else ctx1

/-- Outcome of the claim-mapping half of `Interceptor` (lines 80-133):
either the call is rejected because `GetClaims` failed, or processing
proceeds with a possibly enriched context and possibly mapped claims.
`calls` records the `GetClaims` invocations, `result` what it returned. -/
inductive MapPhase where
  | rejected (calledWith : AuthInfo) (mapperErr : String)
  | proceeded (ctx : Context) (claims : Option Claims) (calls : List AuthInfo)
      (result : Option (Except String (Option Claims)))

/-- Lines 80-133 of `Interceptor`: evidence gathering, the invocation guard,
claim mapping, and context enrichment.  Runs only when both a claim mapper
and an authorizer are configured. -/
def Interceptor.mapPhase (a : Interceptor) (ctx0 : Context) (req : Request)
    (info : UnaryServerInfo) : MapPhase :=
  match a.claimMapper, a.authorizer with
  | some cm, some _ =>
    if a.shouldInvokeMapper cm ctx0 then
      let authInfo := a.buildAuthInfo ctx0 req info
      match cm.GetClaims authInfo with
      | .error e => .rejected authInfo e
      | .ok mappedClaims =>
        .proceeded (enrichContext ctx0 mappedClaims authInfo.AuthToken)
          mappedClaims [authInfo] (some (.ok mappedClaims))
    else
      .proceeded ctx0 none [] none
  | _, _ => .proceeded ctx0 none [] none

/-- The `hasNamespace` extraction in `Interceptor`: `GetNamespace()` when the
request payload exposes the accessor, else the empty string. -/
def namespaceOf (req : Request) : String :=
  match req.getNamespaceImpl with
  | some s => s
  | none => ""

/-- `getMetricsHandler`: scope the base handler with the operation tag and
either the namespace tag or the unknown-namespace tag. -/
def Interceptor.getMetricsHandler (a : Interceptor) (operation nsp : String) :
    List MetricsTag :=
  if nsp ≠ "" then
    a.metricsBaseTags ++ [.operation operation, .namespaceTag nsp]
  else
    a.metricsBaseTags ++ [.operation operation, .namespaceUnknown]

/-- The observable outcome of one call through `Interceptor.run`: the
returned response/error pair plus the trace of handler, mapper and
authorizer invocations, recorded metrics events, and logged errors. -/
structure CallTrace where
  resp : Option Nat
  err : Option RpcError
  handlerInvoked : Option (Context × Request)
  mapperCalls : List AuthInfo
  mapperResult : Option (Except String (Option Claims))
  authorizerCalls : List (Option Claims × CallTarget)
  authorizerResult : Option (Except String Result)
  metricsEvents : List MetricsEvent
  loggedErrors : List String

/-- `interceptor.Interceptor` (the unary interceptor body), as a pure
function from the call inputs and the forwarded handler to a `CallTrace`.
The authorizer half mirrors lines 135-162: namespace extraction via the
`hasNamespace` assertion, the namespace-scoped metrics handler, the timed
`authorize` call (the latency timer records whenever `Authorize` returns,
before any counter increment), the failure counter, the unauthorized
counter with the optional reason-carrying error, and finally forwarding. -/
def Interceptor.run (a : Interceptor) (ctx0 : Context) (req : Request)
    (info : UnaryServerInfo)
    (handler : Context → Request → Option Nat × Option RpcError) : CallTrace :=
  match a.mapPhase ctx0 req info with
  | .rejected authInfo e =>
    { resp := none
      err := some errUnauthorized
      handlerInvoked := none
      mapperCalls := [authInfo]
      mapperResult := some (.error e)
      authorizerCalls := []
      authorizerResult := none
      metricsEvents := []
      loggedErrors := [e] }
  | .proceeded ctx claims mCalls mRes =>
    match a.authorizer with
    | none =>
      let hr := handler ctx req
      { resp := hr.1
        err := hr.2
        handlerInvoked := some (ctx, req)
        mapperCalls := mCalls
        mapperResult := mRes
        authorizerCalls := []
        authorizerResult := none
        metricsEvents := []
        loggedErrors := [] }
    | some az =>
      let nsp := namespaceOf req
      let mh := a.getMetricsHandler AuthorizationScope nsp
      let target : CallTarget :=
        { Namespace := nsp, APIName := info.FullMethod, Request := req }
      let timerEvent : MetricsEvent := .timer mh ServiceAuthorizationLatency
      match az ctx claims target with
      | .error e =>
        { resp := none
          err := some errUnauthorized
          handlerInvoked := none
          mapperCalls := mCalls
          mapperResult := mRes
          authorizerCalls := [(claims, target)]
          authorizerResult := some (.error e)
          metricsEvents := [timerEvent,
            .counter mh ServiceErrAuthorizeFailedCounter 1]
          loggedErrors := [e] }
      | .ok result =>
        if result.Decision = Decision.Allow then
          let hr := handler ctx req
          { resp := hr.1
            err := hr.2
            handlerInvoked := some (ctx, req)
            mapperCalls := mCalls
            mapperResult := mRes
            authorizerCalls := [(claims, target)]
            authorizerResult := some (.ok result)
            metricsEvents := [timerEvent]
            loggedErrors := [] }
        else
          { resp := none
            err := some (if result.Reason ≠ "" then
                RpcError.permissionDenied RequestUnauthorized result.Reason
              else errUnauthorized)
            handlerInvoked := none
            mapperCalls := mCalls
            mapperResult := mRes
            authorizerCalls := [(claims, target)]
            authorizerResult := some (.ok result)
            metricsEvents := [timerEvent,
              .counter mh ServiceErrUnauthorizedCounter 1]
            loggedErrors := [] }

/-! Concrete collaborators and call inputs, used to instantiate the theorems
below on executable examples. -/

/-- An authorizer that allows every call. -/
def allowAll : Authorizer := fun _ _ _ => .ok { Decision := .Allow, Reason := "" }

/-- An authorizer that denies every call with reason "missing scope". -/
def denyMissing : Authorizer :=
  fun _ _ _ => .ok { Decision := .Deny, Reason := "missing scope" }

/-- An authorizer whose policy evaluation fails. -/
def failAz : Authorizer := fun _ _ _ => .error "policy engine crashed"

/-- A mapper that succeeds and declares auth info not required. -/
def optionalMapper : ClaimMapper :=
  { GetClaims := fun _ => .ok (some { token := 1 }), withAuthInfoRequired := some false }

/-- A mapper that succeeds and declares auth info required. -/
def requiredMapper : ClaimMapper :=
  { GetClaims := fun _ => .ok (some { token := 2 }), withAuthInfoRequired := some true }

/-- A mapper that always fails. -/
def failingMapper : ClaimMapper :=
  { GetClaims := fun _ => .error "bad token", withAuthInfoRequired := none }

/-- A context with no metadata, no peer, and empty value slots. -/
def emptyCtx : Context :=
  { md := none, peer := none, mappedClaims := none, authHeader := none }

/-- A verified client certificate. -/
def sampleCert : Certificate := { Subject := { dn := "CN=client-1" } }

/-- A context whose peer carries one verified chain headed by `sampleCert`. -/
def certCtx : Context :=
  { md := none
    peer := some { AuthInfo := some { State := { VerifiedChains := [[sampleCert]] } } }
    mappedClaims := none
    authHeader := none }

/-- A context carrying two values for the default primary auth header. -/
def hdrCtx : Context :=
  { md := some [("authorization", ["tokA", "tokB"])]
    peer := none
    mappedClaims := none
    authHeader := none }

/-- Call info with a fully-qualified method name. -/
def sampleInfo : UnaryServerInfo := { FullMethod := "/svc/Method" }

/-- A request payload without a namespace accessor. -/
def plainReq : Request := { payload := 0, getNamespaceImpl := none }

/-- A request payload exposing namespace "ns1". -/
def nsReq : Request := { payload := 1, getNamespaceImpl := some "ns1" }

/-- A handler returning response 42 and no error. -/
def okHandler : Context → Request → Option Nat × Option RpcError :=
  fun _ _ => (some 42, none)

/-- Open-access configuration: neither claim mapper nor authorizer. -/
def aOpen : Interceptor :=
  { authorizer := none, claimMapper := none, metricsBaseTags := []
    audienceGetter := none, authHeaderName := defaultAuthHeaderName
    authExtraHeaderName := defaultAuthExtraHeaderName }

/-- Auth-info-optional mapper with an allow-all authorizer. -/
def aOptional : Interceptor :=
  { authorizer := some allowAll, claimMapper := some optionalMapper
    metricsBaseTags := [], audienceGetter := none
    authHeaderName := defaultAuthHeaderName
    authExtraHeaderName := defaultAuthExtraHeaderName }

/-- Failing mapper with an allow-all authorizer. -/
def aFailMap : Interceptor :=
  { authorizer := some allowAll, claimMapper := some failingMapper
    metricsBaseTags := [], audienceGetter := none
    authHeaderName := defaultAuthHeaderName
    authExtraHeaderName := defaultAuthExtraHeaderName }

/-- Required-evidence mapper with a deny-all authorizer. -/
def aDeny : Interceptor :=
  { authorizer := some denyMissing, claimMapper := some requiredMapper
    metricsBaseTags := [], audienceGetter := none
    authHeaderName := defaultAuthHeaderName
    authExtraHeaderName := defaultAuthExtraHeaderName }

/-- Required-evidence mapper with an allow-all authorizer. -/
def aAllow : Interceptor :=
  { authorizer := some allowAll, claimMapper := some requiredMapper
    metricsBaseTags := [], audienceGetter := none
    authHeaderName := defaultAuthHeaderName
    authExtraHeaderName := defaultAuthExtraHeaderName }

/-- Required-evidence mapper with a failing authorizer. -/
def aFailAz : Interceptor :=
  { authorizer := some failAz, claimMapper := some requiredMapper
    metricsBaseTags := [], audienceGetter := none
    authHeaderName := defaultAuthHeaderName
    authExtraHeaderName := defaultAuthExtraHeaderName }

/-- Claim mapper configured but no authorizer. -/
def aNoAz : Interceptor :=
  { authorizer := none, claimMapper := some requiredMapper
    metricsBaseTags := [], audienceGetter := none
    authHeaderName := defaultAuthHeaderName
    authExtraHeaderName := defaultAuthExtraHeaderName }

/-- The context the handler sees for a call through `aAllow` with `hdrCtx`:
both slots attached. -/
def enrichedHdrCtx : Context :=
  { md := hdrCtx.md
    peer := none
    mappedClaims := some (some { token := 2 })
    authHeader := some "tokA" }

/-! Structural lemmas about the embedded interceptor. -/

/-- After successful mapping the claims slot always holds the mapped claims. -/
theorem enrichContext_mappedClaims (ctx : Context) (mc : Option Claims)
    (s : String) : (enrichContext ctx mc s).mappedClaims = some mc := by
  unfold enrichContext
  split <;> rfl

/-- The header slot is set exactly when the raw header value is non-empty. -/
theorem enrichContext_authHeader (ctx : Context) (mc : Option Claims)
    (s : String) :
    (enrichContext ctx mc s).authHeader =
      if s ≠ "" then some s else ctx.authHeader := by
  unfold enrichContext
  split <;> simp_all

/-- Exhaustive case analysis of the claim-mapping half of the interceptor. -/
theorem mapPhase_cases (a : Interceptor) (ctx0 : Context) (req : Request)
    (info : UnaryServerInfo) :
    (∃ cm az, a.claimMapper = some cm ∧ a.authorizer = some az ∧
      a.shouldInvokeMapper cm ctx0 = true ∧
      ((∃ e, cm.GetClaims (a.buildAuthInfo ctx0 req info) = .error e ∧
          a.mapPhase ctx0 req info = .rejected (a.buildAuthInfo ctx0 req info) e) ∨
       (∃ mc, cm.GetClaims (a.buildAuthInfo ctx0 req info) = .ok mc ∧
          a.mapPhase ctx0 req info =
            .proceeded
              (enrichContext ctx0 mc (a.buildAuthInfo ctx0 req info).AuthToken)
              mc [a.buildAuthInfo ctx0 req info] (some (.ok mc))))) ∨
    (∃ cm az, a.claimMapper = some cm ∧ a.authorizer = some az ∧
      a.shouldInvokeMapper cm ctx0 = false ∧
      a.mapPhase ctx0 req info = .proceeded ctx0 none [] none) ∨
    ((a.claimMapper = none ∨ a.authorizer = none) ∧
      a.mapPhase ctx0 req info = .proceeded ctx0 none [] none) := by
  rcases hcm : a.claimMapper with _ | cm <;> rcases haz : a.authorizer with _ | az
  · exact Or.inr (Or.inr ⟨Or.inl rfl, by unfold Interceptor.mapPhase; rw [hcm, haz]⟩)
  · exact Or.inr (Or.inr ⟨Or.inl rfl, by unfold Interceptor.mapPhase; rw [hcm, haz]⟩)
  · exact Or.inr (Or.inr ⟨Or.inr rfl, by unfold Interceptor.mapPhase; rw [hcm, haz]⟩)
  · cases hs : a.shouldInvokeMapper cm ctx0
    · refine Or.inr (Or.inl ⟨cm, az, rfl, rfl, hs, ?_⟩)
      unfold Interceptor.mapPhase
      rw [hcm, haz]
      simp [hs]
    · cases hg : cm.GetClaims (a.buildAuthInfo ctx0 req info) with
      | error e =>
        refine Or.inl ⟨cm, az, rfl, rfl, hs, Or.inl ⟨e, hg, ?_⟩⟩
        unfold Interceptor.mapPhase
        rw [hcm, haz]
        simp [hs, hg]
      | ok mc =>
        refine Or.inl ⟨cm, az, rfl, rfl, hs, Or.inr ⟨mc, hg, ?_⟩⟩
        unfold Interceptor.mapPhase
        rw [hcm, haz]
        simp [hs, hg]

/-- The invocation guard, restated as a proposition. -/
theorem shouldInvokeMapper_iff (a : Interceptor) (cm : ClaimMapper)
    (ctx : Context) :
    a.shouldInvokeMapper cm ctx = true ↔
      ((certSubjectOf ctx).isSome = true ∨ a.authHeaderValues ctx ≠ [] ∨
        cm.effAuthInfoRequired = false) := by
  unfold Interceptor.shouldInvokeMapper
  simp [Bool.or_eq_true, List.isEmpty_iff, or_assoc]

/-- Reduction of `run` when claim mapping rejects the call. -/
theorem run_rejected (a : Interceptor) (ctx0 : Context) (req : Request)
    (info : UnaryServerInfo)
    (handler : Context → Request → Option Nat × Option RpcError)
    (ai : AuthInfo) (e : String)
    (h : a.mapPhase ctx0 req info = .rejected ai e) :
    a.run ctx0 req info handler =
      { resp := none, err := some errUnauthorized, handlerInvoked := none
        mapperCalls := [ai], mapperResult := some (.error e)
        authorizerCalls := [], authorizerResult := none
        metricsEvents := [], loggedErrors := [e] } := by
  unfold Interceptor.run
  rw [h]

/-- Reduction of `run` when mapping proceeds and no authorizer is set. -/
theorem run_proceeded_noAz (a : Interceptor) (ctx0 : Context) (req : Request)
    (info : UnaryServerInfo)
    (handler : Context → Request → Option Nat × Option RpcError)
    (ctx : Context) (cl : Option Claims) (calls : List AuthInfo)
    (res : Option (Except String (Option Claims)))
    (h : a.mapPhase ctx0 req info = .proceeded ctx cl calls res)
    (haz : a.authorizer = none) :
    a.run ctx0 req info handler =
      { resp := (handler ctx req).1, err := (handler ctx req).2
        handlerInvoked := some (ctx, req)
        mapperCalls := calls, mapperResult := res
        authorizerCalls := [], authorizerResult := none
        metricsEvents := [], loggedErrors := [] } := by
  unfold Interceptor.run
  rw [h, haz]

/-- Reduction of `run` when the authorizer evaluation fails. -/
theorem run_az_error (a : Interceptor) (ctx0 : Context) (req : Request)
    (info : UnaryServerInfo)
    (handler : Context → Request → Option Nat × Option RpcError)
    (ctx : Context) (cl : Option Claims) (calls : List AuthInfo)
    (res : Option (Except String (Option Claims))) (az : Authorizer) (e : String)
    (h : a.mapPhase ctx0 req info = .proceeded ctx cl calls res)
    (haz : a.authorizer = some az)
    (hres : az ctx cl
      { Namespace := namespaceOf req, APIName := info.FullMethod, Request := req }
        = .error e) :
    a.run ctx0 req info handler =
      { resp := none, err := some errUnauthorized, handlerInvoked := none
        mapperCalls := calls, mapperResult := res
        authorizerCalls := [(cl,
          { Namespace := namespaceOf req, APIName := info.FullMethod, Request := req })]
        authorizerResult := some (.error e)
        metricsEvents := [.timer
            (a.getMetricsHandler AuthorizationScope (namespaceOf req))
            ServiceAuthorizationLatency,
          .counter (a.getMetricsHandler AuthorizationScope (namespaceOf req))
            ServiceErrAuthorizeFailedCounter 1]
        loggedErrors := [e] } := by
  unfold Interceptor.run
  rw [h, haz]
  simp only [hres]

/-- Reduction of `run` when the authorizer allows the call. -/
theorem run_az_allow (a : Interceptor) (ctx0 : Context) (req : Request)
    (info : UnaryServerInfo)
    (handler : Context → Request → Option Nat × Option RpcError)
    (ctx : Context) (cl : Option Claims) (calls : List AuthInfo)
    (res : Option (Except String (Option Claims))) (az : Authorizer)
    (result : Result)
    (h : a.mapPhase ctx0 req info = .proceeded ctx cl calls res)
    (haz : a.authorizer = some az)
    (hres : az ctx cl
      { Namespace := namespaceOf req, APIName := info.FullMethod, Request := req }
        = .ok result)
    (hallow : result.Decision = .Allow) :
    a.run ctx0 req info handler =
      { resp := (handler ctx req).1, err := (handler ctx req).2
        handlerInvoked := some (ctx, req)
        mapperCalls := calls, mapperResult := res
        authorizerCalls := [(cl,
          { Namespace := namespaceOf req, APIName := info.FullMethod, Request := req })]
        authorizerResult := some (.ok result)
        metricsEvents := [.timer
            (a.getMetricsHandler AuthorizationScope (namespaceOf req))
            ServiceAuthorizationLatency]
        loggedErrors := [] } := by
  unfold Interceptor.run
  rw [h, haz]
  simp [hres, hallow]

/-- Reduction of `run` when the authorizer returns a non-Allow decision. -/
theorem run_az_deny (a : Interceptor) (ctx0 : Context) (req : Request)
    (info : UnaryServerInfo)
    (handler : Context → Request → Option Nat × Option RpcError)
    (ctx : Context) (cl : Option Claims) (calls : List AuthInfo)
    (res : Option (Except String (Option Claims))) (az : Authorizer)
    (result : Result)
    (h : a.mapPhase ctx0 req info = .proceeded ctx cl calls res)
    (haz : a.authorizer = some az)
    (hres : az ctx cl
      { Namespace := namespaceOf req, APIName := info.FullMethod, Request := req }
        = .ok result)
    (hdeny : result.Decision ≠ .Allow) :
    a.run ctx0 req info handler =
      { resp := none
        err := some (if result.Reason ≠ "" then
            RpcError.permissionDenied RequestUnauthorized result.Reason
          else errUnauthorized)
        handlerInvoked := none
        mapperCalls := calls, mapperResult := res
        authorizerCalls := [(cl,
          { Namespace := namespaceOf req, APIName := info.FullMethod, Request := req })]
        authorizerResult := some (.ok result)
        metricsEvents := [.timer
            (a.getMetricsHandler AuthorizationScope (namespaceOf req))
            ServiceAuthorizationLatency,
          .counter (a.getMetricsHandler AuthorizationScope (namespaceOf req))
            ServiceErrUnauthorizedCounter 1]
        loggedErrors := [] } := by
  unfold Interceptor.run
  rw [h, haz]
  simp only [hres, if_neg hdeny]

/-- A proceeded mapping phase never carries a mapper error: its recorded
result is either absent (mapping skipped) or a success. -/
theorem mapPhase_proceeded_res (a : Interceptor) (ctx0 : Context)
    (req : Request) (info : UnaryServerInfo) (ctx : Context)
    (cl : Option Claims) (calls : List AuthInfo)
    (res : Option (Except String (Option Claims)))
    (h : a.mapPhase ctx0 req info = .proceeded ctx cl calls res) :
    res = none ∨ res = some (.ok cl) := by
  rcases mapPhase_cases a ctx0 req info with
    ⟨cm, az, _, _, _, ⟨e, _, heq⟩ | ⟨mc, _, heq⟩⟩ | ⟨cm, az, _, _, _, heq⟩ | ⟨_, heq⟩
  · rw [heq] at h
    exact absurd h (by simp)
  · rw [heq] at h
    injection h with _ h2 _ h4
    right
    rw [← h4, h2]
  · rw [heq] at h
    injection h with _ _ _ h4
    left
    rw [← h4]
  · rw [heq] at h
    injection h with _ _ _ h4
    left
    rw [← h4]

/-- When the handler is invoked on a call whose mapping phase proceeded, the
context it receives is exactly the one produced by the mapping phase, the
request is passed through unchanged, and the mapping trace is preserved. -/
theorem handler_ctx_of_proceeded (a : Interceptor) (ctx0 : Context)
    (req : Request) (info : UnaryServerInfo)
    (handler : Context → Request → Option Nat × Option RpcError)
    (ctx : Context) (cl : Option Claims) (calls : List AuthInfo)
    (res : Option (Except String (Option Claims))) (c : Context) (r : Request)
    (h : a.mapPhase ctx0 req info = .proceeded ctx cl calls res)
    (hinv : (a.run ctx0 req info handler).handlerInvoked = some (c, r)) :
    c = ctx ∧ r = req ∧ (a.run ctx0 req info handler).mapperResult = res := by
  cases haz : a.authorizer with
  | none =>
    rw [run_proceeded_noAz a ctx0 req info handler ctx cl calls res h haz] at hinv ⊢
    simp only [Option.some.injEq, Prod.mk.injEq] at hinv
    exact ⟨hinv.1.symm, hinv.2.symm, rfl⟩
  | some az =>
    cases hazr : az ctx cl
        { Namespace := namespaceOf req, APIName := info.FullMethod,
          Request := req } with
    | error e =>
      rw [run_az_error a ctx0 req info handler ctx cl calls res az e h haz hazr] at hinv
      exact absurd hinv (by simp)
    | ok result =>
      by_cases hallow : result.Decision = Decision.Allow
      · rw [run_az_allow a ctx0 req info handler ctx cl calls res az result
          h haz hazr hallow] at hinv ⊢
        simp only [Option.some.injEq, Prod.mk.injEq] at hinv
        exact ⟨hinv.1.symm, hinv.2.symm, rfl⟩
      · rw [run_az_deny a ctx0 req info handler ctx cl calls res az result
          h haz hazr hallow] at hinv
        exact absurd hinv (by simp)

/-- With an authorizer configured, `run` records exactly one authorizer
invocation carrying the mapped claims and the constructed call target,
preserves the mapping trace, and scopes every recorded metrics event with the
namespace-scoped handler. -/
theorem run_proceeded_az_fields (a : Interceptor) (ctx0 : Context)
    (req : Request) (info : UnaryServerInfo)
    (handler : Context → Request → Option Nat × Option RpcError)
    (ctx : Context) (cl : Option Claims) (calls : List AuthInfo)
    (res : Option (Except String (Option Claims))) (az : Authorizer)
    (h : a.mapPhase ctx0 req info = .proceeded ctx cl calls res)
    (haz : a.authorizer = some az) :
    (a.run ctx0 req info handler).mapperCalls = calls ∧
    (a.run ctx0 req info handler).mapperResult = res ∧
    (a.run ctx0 req info handler).authorizerCalls =
      [(cl,
        { Namespace := namespaceOf req, APIName := info.FullMethod,
          Request := req })] ∧
    (∀ ev ∈ (a.run ctx0 req info handler).metricsEvents,
      ev.tags = a.getMetricsHandler AuthorizationScope (namespaceOf req)) := by
  cases hazr : az ctx cl
      { Namespace := namespaceOf req, APIName := info.FullMethod,
        Request := req } with
  | error e =>
    rw [run_az_error a ctx0 req info handler ctx cl calls res az e h haz hazr]
    refine ⟨rfl, rfl, rfl, ?_⟩
    intro ev hev
    rcases List.mem_cons.mp hev with rfl | hev2
    · rfl
    rcases List.mem_cons.mp hev2 with rfl | hev3
    · rfl
    cases hev3
  | ok result =>
    by_cases hallow : result.Decision = Decision.Allow
    · rw [run_az_allow a ctx0 req info handler ctx cl calls res az result
        h haz hazr hallow]
      refine ⟨rfl, rfl, rfl, ?_⟩
      intro ev hev
      rcases List.mem_cons.mp hev with rfl | hev2
      · rfl
      cases hev2
    · rw [run_az_deny a ctx0 req info handler ctx cl calls res az result
        h haz hazr hallow]
      refine ⟨rfl, rfl, rfl, ?_⟩
      intro ev hev
      rcases List.mem_cons.mp hev with rfl | hev2
      · rfl
      rcases List.mem_cons.mp hev2 with rfl | hev3
      · rfl
      cases hev3

/-! Claim theorems. -/

/-- Claim C7: for every call on an interceptor configured with neither a
claim mapper nor an authorizer, the call is forwarded to the handler with the
incoming context and request unchanged and no metrics recorded by the
interceptor; the handler's result and error are returned verbatim. -/
theorem open_access_passthrough (a : Interceptor) (ctx0 : Context)
    (req : Request) (info : UnaryServerInfo)
    (handler : Context → Request → Option Nat × Option RpcError)
    (hcm : a.claimMapper = none) (haz : a.authorizer = none) :
    a.run ctx0 req info handler =
      { resp := (handler ctx0 req).1, err := (handler ctx0 req).2
        handlerInvoked := some (ctx0, req)
        mapperCalls := [], mapperResult := none
        authorizerCalls := [], authorizerResult := none
        metricsEvents := [], loggedErrors := [] } := by
  have hmp : a.mapPhase ctx0 req info = .proceeded ctx0 none [] none := by
    unfold Interceptor.mapPhase
    rw [hcm, haz]
  exact run_proceeded_noAz a ctx0 req info handler ctx0 none [] none hmp haz

/-- Witness for C7: a concrete open-access call is passed through. -/
theorem open_access_passthrough_witness :
    aOpen.run emptyCtx plainReq sampleInfo okHandler =
      { resp := some 42, err := none, handlerInvoked := some (emptyCtx, plainReq)
        mapperCalls := [], mapperResult := none, authorizerCalls := []
        authorizerResult := none, metricsEvents := [], loggedErrors := [] } :=
  open_access_passthrough aOpen emptyCtx plainReq sampleInfo okHandler rfl rfl

/-- Claim C10: `PeerCert` and `TLSInfoFormContext` are total: absence of a
peer, non-TLS credentials, a nil TLS info, an empty verified-chains list, or
an empty first chain all yield `none` rather than an error; otherwise
`PeerCert` returns the first certificate of the first verified chain. -/
theorem peerCert_totality :
    PeerCert none = none ∧
    (∀ ctx : Context, ctx.peer = none → TLSInfoFormContext ctx = none) ∧
    (∀ (ctx : Context) (p : Peer), ctx.peer = some p → p.AuthInfo = none →
      TLSInfoFormContext ctx = none) ∧
    (∀ (ctx : Context) (p : Peer) (ti : TLSInfo), ctx.peer = some p →
      p.AuthInfo = some ti → TLSInfoFormContext ctx = some ti) ∧
    (∀ ti : TLSInfo, ti.State.VerifiedChains = [] → PeerCert (some ti) = none) ∧
    (∀ (ti : TLSInfo) (rest : List (List Certificate)),
      ti.State.VerifiedChains = [] :: rest → PeerCert (some ti) = none) ∧
    (∀ (ti : TLSInfo) (c : Certificate) (cs : List Certificate)
      (rest : List (List Certificate)),
      ti.State.VerifiedChains = (c :: cs) :: rest → PeerCert (some ti) = some c) := by
  refine ⟨rfl, ?_, ?_, ?_, ?_, ?_, ?_⟩ <;> intros <;>
    simp_all [TLSInfoFormContext, PeerCert]

/-- Witness for C10: evaluated on a one-chain TLS peer and on an absent
peer. -/
theorem peerCert_totality_witness :
    PeerCert (some { State := { VerifiedChains := [[sampleCert]] } }) =
      some sampleCert ∧
    TLSInfoFormContext emptyCtx = none :=
  ⟨peerCert_totality.2.2.2.2.2.2 { State := { VerifiedChains := [[sampleCert]] } }
      sampleCert [] [] rfl,
   peerCert_totality.2.1 emptyCtx rfl⟩

/-- Claim C6: whenever the authorizer evaluation succeeds with
`Decision = Deny` and `Reason = "missing scope"`, the interceptor returns a
permission-denied error whose reason is exactly "missing scope" and the
forwarded handler is never invoked. -/
theorem deny_reason_surfaced (a : Interceptor) (ctx0 : Context) (req : Request)
    (info : UnaryServerInfo)
    (handler : Context → Request → Option Nat × Option RpcError)
    (h : (a.run ctx0 req info handler).authorizerResult =
      some (.ok { Decision := .Deny, Reason := "missing scope" })) :
    (a.run ctx0 req info handler).err =
      some (.permissionDenied RequestUnauthorized "missing scope") ∧
    (a.run ctx0 req info handler).handlerInvoked = none := by
  cases hmp : a.mapPhase ctx0 req info with
  | rejected ai e =>
    rw [run_rejected a ctx0 req info handler ai e hmp] at h
    exact absurd h (by simp)
  | proceeded ctx cl calls res =>
    cases haz : a.authorizer with
    | none =>
      rw [run_proceeded_noAz a ctx0 req info handler ctx cl calls res hmp haz] at h
      exact absurd h (by simp)
    | some az =>
      cases hres : az ctx cl
          { Namespace := namespaceOf req, APIName := info.FullMethod,
            Request := req } with
      | error e =>
        rw [run_az_error a ctx0 req info handler ctx cl calls res az e hmp haz hres] at h
        exact absurd h (by simp)
      | ok result =>
        by_cases hallow : result.Decision = Decision.Allow
        · rw [run_az_allow a ctx0 req info handler ctx cl calls res az result
            hmp haz hres hallow] at h
          simp only [Option.some.injEq, Except.ok.injEq] at h
          rw [h] at hallow
          exact absurd hallow (by simp)
        · rw [run_az_deny a ctx0 req info handler ctx cl calls res az result
            hmp haz hres hallow] at h
          rw [run_az_deny a ctx0 req info handler ctx cl calls res az result
            hmp haz hres hallow]
          simp only [Option.some.injEq, Except.ok.injEq] at h
          rw [h]
          simp

/-- Witness for C6: a concrete denied call with reason "missing scope". -/
theorem deny_reason_surfaced_witness :
    (aDeny.run hdrCtx plainReq sampleInfo okHandler).err =
      some (.permissionDenied RequestUnauthorized "missing scope") ∧
    (aDeny.run hdrCtx plainReq sampleInfo okHandler).handlerInvoked = none :=
  deny_reason_surfaced aDeny hdrCtx plainReq sampleInfo okHandler (by decide)

/-- Claim C1: every error returned by the interceptor itself (the handler was
never invoked) is a permission-denied error with message
"Request unauthorized." whose reason is either empty or exactly the
authorizer's policy-supplied reason; moreover, on a claim-mapper failure or an
authorizer evaluation failure the surfaced error is the fixed generic
`errUnauthorized`, independent of the collaborator's error text, so that text
never reaches the caller. -/
theorem interceptor_error_shape (a : Interceptor) (ctx0 : Context)
    (req : Request) (info : UnaryServerInfo)
    (handler : Context → Request → Option Nat × Option RpcError) :
    ((a.run ctx0 req info handler).handlerInvoked = none →
      ∃ r, (a.run ctx0 req info handler).err =
          some (.permissionDenied RequestUnauthorized r) ∧
        (r = "" ∨ ∃ res, (a.run ctx0 req info handler).authorizerResult =
          some (.ok res) ∧ r = res.Reason)) ∧
    (∀ e, (a.run ctx0 req info handler).mapperResult = some (.error e) →
      (a.run ctx0 req info handler).err = some errUnauthorized) ∧
    (∀ e, (a.run ctx0 req info handler).authorizerResult = some (.error e) →
      (a.run ctx0 req info handler).err = some errUnauthorized) := by
  cases hmp : a.mapPhase ctx0 req info with
  | rejected ai e =>
    rw [run_rejected a ctx0 req info handler ai e hmp]
    refine ⟨fun _ => ⟨"", rfl, Or.inl rfl⟩, fun e' _ => rfl, fun e' he' => ?_⟩
    exact absurd he' (by simp)
  | proceeded ctx cl calls res =>
    have hres' := mapPhase_proceeded_res a ctx0 req info ctx cl calls res hmp
    cases haz : a.authorizer with
    | none =>
      rw [run_proceeded_noAz a ctx0 req info handler ctx cl calls res hmp haz]
      refine ⟨fun hh => absurd hh (by simp), fun e he => ?_, fun e he => ?_⟩
      · rcases hres' with h0 | h0 <;> rw [h0] at he <;> exact absurd he (by simp)
      · exact absurd he (by simp)
    | some az =>
      cases hazr : az ctx cl
          { Namespace := namespaceOf req, APIName := info.FullMethod,
            Request := req } with
      | error e =>
        rw [run_az_error a ctx0 req info handler ctx cl calls res az e hmp haz hazr]
        refine ⟨fun _ => ⟨"", rfl, Or.inl rfl⟩, fun e' he' => ?_, fun e' _ => rfl⟩
        rcases hres' with h0 | h0 <;> rw [h0] at he' <;> exact absurd he' (by simp)
      | ok result =>
        by_cases hallow : result.Decision = Decision.Allow
        · rw [run_az_allow a ctx0 req info handler ctx cl calls res az result
            hmp haz hazr hallow]
          refine ⟨fun hh => absurd hh (by simp), fun e he => ?_, fun e he => ?_⟩
          · rcases hres' with h0 | h0 <;> rw [h0] at he <;> exact absurd he (by simp)
          · exact absurd he (by simp)
        · rw [run_az_deny a ctx0 req info handler ctx cl calls res az result
            hmp haz hazr hallow]
          refine ⟨fun _ => ?_, fun e he => ?_, fun e he => ?_⟩
          · by_cases hr : result.Reason = ""
            · refine ⟨"", ?_, Or.inl rfl⟩
              simp [hr, errUnauthorized]
            · refine ⟨result.Reason, ?_, Or.inr ⟨result, rfl, rfl⟩⟩
              simp [hr]
          · rcases hres' with h0 | h0 <;> rw [h0] at he <;> exact absurd he (by simp)
          · exact absurd he (by simp)

/-- Witness for C1: a concrete failing claim mapper yields exactly the fixed
generic unauthorized error, with no trace of the mapper's error text. -/
theorem interceptor_error_shape_witness :
    (aFailMap.run hdrCtx plainReq sampleInfo okHandler).err =
      some errUnauthorized :=
  (interceptor_error_shape aFailMap hdrCtx plainReq sampleInfo okHandler).2.1
    "bad token" (by decide)

/-- Claim C2: with both a claim mapper and an authorizer configured,
`GetClaims` is invoked iff a certificate subject was found, or a primary auth
header value was present, or the mapper declares auth info not required; when
none of these holds, mapping is skipped and the authorizer receives absent
claims. -/
theorem claimMapper_invocation_iff (a : Interceptor) (ctx0 : Context)
    (req : Request) (info : UnaryServerInfo)
    (handler : Context → Request → Option Nat × Option RpcError)
    (cm : ClaimMapper) (az : Authorizer)
    (hcm : a.claimMapper = some cm) (haz : a.authorizer = some az) :
    ((a.run ctx0 req info handler).mapperCalls ≠ [] ↔
      ((certSubjectOf ctx0).isSome = true ∨ a.authHeaderValues ctx0 ≠ [] ∨
        cm.effAuthInfoRequired = false)) ∧
    (¬((certSubjectOf ctx0).isSome = true ∨ a.authHeaderValues ctx0 ≠ [] ∨
        cm.effAuthInfoRequired = false) →
      (a.run ctx0 req info handler).authorizerCalls =
        [(none,
          { Namespace := namespaceOf req, APIName := info.FullMethod,
            Request := req })]) := by
  rcases mapPhase_cases a ctx0 req info with
    ⟨cm', az', hcm', haz', hs, ⟨e, hg, heq⟩ | ⟨mc, hg, heq⟩⟩ |
    ⟨cm', az', hcm', haz', hs, heq⟩ | ⟨hnone, heq⟩
  · have hcmeq : cm = cm' := by
      rw [hcm] at hcm'
      exact Option.some.inj hcm'
    subst hcmeq
    rw [run_rejected a ctx0 req info handler _ e heq]
    refine ⟨?_, fun hn => absurd ((shouldInvokeMapper_iff a cm ctx0).mp hs) hn⟩
    simp only [ne_eq, List.cons_ne_nil, not_false_eq_true, true_iff]
    exact (shouldInvokeMapper_iff a cm ctx0).mp hs
  · have hcmeq : cm = cm' := by
      rw [hcm] at hcm'
      exact Option.some.inj hcm'
    subst hcmeq
    obtain ⟨hc1, _, _, _⟩ :=
      run_proceeded_az_fields a ctx0 req info handler _ mc _ _ az heq haz
    refine ⟨?_, fun hn => absurd ((shouldInvokeMapper_iff a cm ctx0).mp hs) hn⟩
    rw [hc1]
    simp only [ne_eq, List.cons_ne_nil, not_false_eq_true, true_iff]
    exact (shouldInvokeMapper_iff a cm ctx0).mp hs
  · have hcmeq : cm = cm' := by
      rw [hcm] at hcm'
      exact Option.some.inj hcm'
    subst hcmeq
    obtain ⟨hc1, _, hc3, _⟩ :=
      run_proceeded_az_fields a ctx0 req info handler ctx0 none [] none az heq haz
    have hguard : ¬((certSubjectOf ctx0).isSome = true ∨
        a.authHeaderValues ctx0 ≠ [] ∨ cm.effAuthInfoRequired = false) := by
      intro hcond
      rw [(shouldInvokeMapper_iff a cm ctx0).mpr hcond] at hs
      cases hs
    refine ⟨?_, fun _ => hc3⟩
    rw [hc1]
    simp only [ne_eq, not_true_eq_false, false_iff]
    exact hguard
  · exfalso
    rcases hnone with h0 | h0
    · rw [hcm] at h0
      cases h0
    · rw [haz] at h0
      cases h0

/-- Witness for C2: a call carrying a primary auth header does invoke the
claim mapper. -/
theorem claimMapper_invocation_iff_witness :
    (aDeny.run hdrCtx plainReq sampleInfo okHandler).mapperCalls ≠ [] :=
  (claimMapper_invocation_iff aDeny hdrCtx plainReq sampleInfo okHandler
    requiredMapper denyMissing rfl rfl).1.mpr (Or.inr (Or.inl (by decide)))

/-- Claim C9: on a fresh incoming context (neither slot present), whenever
the handler is invoked, a context carrying the raw auth header value also
carries the mapped-claims slot; the claims slot is attached exactly with the
mapper's successful result (even a nil claims pointer), and the header slot
only ever holds a non-empty value. -/
theorem authHeader_implies_claims_slot (a : Interceptor) (ctx0 : Context)
    (req : Request) (info : UnaryServerInfo)
    (handler : Context → Request → Option Nat × Option RpcError)
    (h1 : ctx0.mappedClaims = none) (h2 : ctx0.authHeader = none)
    (c : Context) (r : Request)
    (hinv : (a.run ctx0 req info handler).handlerInvoked = some (c, r)) :
    (c.authHeader.isSome = true → c.mappedClaims.isSome = true) ∧
    (∀ mc, (a.run ctx0 req info handler).mapperResult = some (.ok mc) →
      c.mappedClaims = some mc) ∧
    (∀ s, c.authHeader = some s → s ≠ "") := by
  rcases mapPhase_cases a ctx0 req info with
    ⟨cm, az, hcm', haz', hs, ⟨e, hg, heq⟩ | ⟨mc, hg, heq⟩⟩ |
    ⟨cm, az, hcm', haz', hs, heq⟩ | ⟨hnone, heq⟩
  · rw [run_rejected a ctx0 req info handler _ e heq] at hinv
    exact absurd hinv (by simp)
  · obtain ⟨hc, hr, hres⟩ :=
      handler_ctx_of_proceeded a ctx0 req info handler _ mc _ _ c r heq hinv
    subst hc
    refine ⟨fun _ => by rw [enrichContext_mappedClaims]; rfl, fun mc' hmc' => ?_,
      fun s hshape => ?_⟩
    · rw [hres] at hmc'
      simp only [Option.some.injEq, Except.ok.injEq] at hmc'
      rw [enrichContext_mappedClaims, hmc']
    · rw [enrichContext_authHeader] at hshape
      by_cases htok : (a.buildAuthInfo ctx0 req info).AuthToken = ""
      · rw [if_neg (by simpa using htok), h2] at hshape
        cases hshape
      · rw [if_pos htok] at hshape
        rw [← Option.some.inj hshape]
        exact htok
  · obtain ⟨hc, hr, hres⟩ :=
      handler_ctx_of_proceeded a ctx0 req info handler ctx0 none [] none c r heq hinv
    subst hc
    refine ⟨fun hh => ?_, fun mc' hmc' => ?_, fun s hshape => ?_⟩
    · rw [h2] at hh
      cases hh
    · rw [hres] at hmc'
      cases hmc'
    · rw [h2] at hshape
      cases hshape
  · obtain ⟨hc, hr, hres⟩ :=
      handler_ctx_of_proceeded a ctx0 req info handler ctx0 none [] none c r heq hinv
    subst hc
    refine ⟨fun hh => ?_, fun mc' hmc' => ?_, fun s hshape => ?_⟩
    · rw [h2] at hh
      cases hh
    · rw [hres] at hmc'
      cases hmc'
    · rw [h2] at hshape
      cases hshape

/-- Witness for C9: a call with a header through a succeeding mapper attaches
the claims slot with exactly the mapped claims. -/
theorem authHeader_implies_claims_slot_witness :
    enrichedHdrCtx.mappedClaims = some (some { token := 2 }) :=
  (authHeader_implies_claims_slot aAllow hdrCtx plainReq sampleInfo okHandler
    rfl rfl enrichedHdrCtx plainReq (by decide)).2.1 (some { token := 2 })
    (by decide)

/-- Counterexample to C3 as stated: with no certificate, no primary header,
and an auth-info-optional mapper, the claim says the slots are never
attached — but the code invokes the mapper anyway and, on success, attaches
the mapped-claims slot to the context the handler receives. -/
theorem contextSlots_counterexample :
    certSubjectOf emptyCtx = none ∧
    aOptional.authHeaderValues emptyCtx = [] ∧
    optionalMapper.effAuthInfoRequired = false ∧
    ((aOptional.run emptyCtx plainReq sampleInfo okHandler).handlerInvoked.map
      fun p => p.1.mappedClaims) = some (some (some { token := 1 })) := by
  decide

/-- Claim C3 (amended): on a fresh incoming context, the two slots are
attached only when claim mapping was invoked and succeeded, and they are
never attached when no relevant evidence (no certificate, no primary header)
existed and the claim mapper declares authentication evidence REQUIRED
(with an auth-info-optional mapper the code does attach the claims slot). -/
theorem contextSlots_attachment (a : Interceptor) (ctx0 : Context)
    (req : Request) (info : UnaryServerInfo)
    (handler : Context → Request → Option Nat × Option RpcError)
    (h1 : ctx0.mappedClaims = none) (h2 : ctx0.authHeader = none)
    (c : Context) (r : Request)
    (hinv : (a.run ctx0 req info handler).handlerInvoked = some (c, r)) :
    ((c.mappedClaims.isSome = true ∨ c.authHeader.isSome = true) →
      ∃ mc, (a.run ctx0 req info handler).mapperResult = some (.ok mc)) ∧
    ((certSubjectOf ctx0).isSome = false → a.authHeaderValues ctx0 = [] →
      (∀ cm, a.claimMapper = some cm → cm.effAuthInfoRequired = true) →
      c = ctx0) := by
  rcases mapPhase_cases a ctx0 req info with
    ⟨cm, az, hcm', haz', hs, ⟨e, hg, heq⟩ | ⟨mc, hg, heq⟩⟩ |
    ⟨cm, az, hcm', haz', hs, heq⟩ | ⟨hnone, heq⟩
  · rw [run_rejected a ctx0 req info handler _ e heq] at hinv
    exact absurd hinv (by simp)
  · obtain ⟨hc, hr, hres⟩ :=
      handler_ctx_of_proceeded a ctx0 req info handler _ mc _ _ c r heq hinv
    subst hc
    refine ⟨fun _ => ⟨mc, hres⟩, fun hcert hhdr hreq => ?_⟩
    exfalso
    have : a.shouldInvokeMapper cm ctx0 = false := by
      unfold Interceptor.shouldInvokeMapper
      rw [hcert]
      unfold Interceptor.authHeaderValues at hhdr
      rw [Interceptor.authHeaderValues, hhdr, hreq cm hcm']
      rfl
    rw [this] at hs
    cases hs
  · obtain ⟨hc, hr, hres⟩ :=
      handler_ctx_of_proceeded a ctx0 req info handler ctx0 none [] none c r heq hinv
    subst hc
    refine ⟨fun hh => ?_, fun _ _ _ => rfl⟩
    exfalso
    rcases hh with hh | hh
    · rw [h1] at hh
      cases hh
    · rw [h2] at hh
      cases hh
  · obtain ⟨hc, hr, hres⟩ :=
      handler_ctx_of_proceeded a ctx0 req info handler ctx0 none [] none c r heq hinv
    subst hc
    refine ⟨fun hh => ?_, fun _ _ _ => rfl⟩
    exfalso
    rcases hh with hh | hh
    · rw [h1] at hh
      cases hh
    · rw [h2] at hh
      cases hh

/-- Witness for the amended C3: a call that attaches the claims slot did have
a successful mapping. -/
theorem contextSlots_attachment_witness :
    ∃ mc, (aAllow.run hdrCtx plainReq sampleInfo okHandler).mapperResult =
      some (.ok mc) :=
  (contextSlots_attachment aAllow hdrCtx plainReq sampleInfo okHandler rfl rfl
    enrichedHdrCtx plainReq (by decide)).1 (Or.inl (by decide))

/-- Counterexample to C4 as stated: a claim-mapping failure increments no
counter at all — the interceptor only logs it — so only two of the four
error-taxonomy categories have distinguishing counters. -/
theorem claimMapping_failure_no_counter :
    (aFailMap.run hdrCtx plainReq sampleInfo okHandler).mapperResult =
      some (.error "bad token") ∧
    (aFailMap.run hdrCtx plainReq sampleInfo okHandler).metricsEvents = [] ∧
    (aFailMap.run hdrCtx plainReq sampleInfo okHandler).loggedErrors =
      ["bad token"] := by
  decide

/-- Claim C4 (amended): only authorization-evaluation failure and
authorization-denied increment (distinct) metrics counters; a claim-mapping
failure records no metrics event at all (it is only logged), and
evidence-extraction absence likewise records no counter. -/
theorem metrics_counters_characterization (a : Interceptor) (ctx0 : Context)
    (req : Request) (info : UnaryServerInfo)
    (handler : Context → Request → Option Nat × Option RpcError) :
    (∀ e, (a.run ctx0 req info handler).authorizerResult = some (.error e) →
      (a.run ctx0 req info handler).metricsEvents =
        [.timer (a.getMetricsHandler AuthorizationScope (namespaceOf req))
          ServiceAuthorizationLatency,
        .counter (a.getMetricsHandler AuthorizationScope (namespaceOf req))
          ServiceErrAuthorizeFailedCounter 1]) ∧
    (∀ res, (a.run ctx0 req info handler).authorizerResult = some (.ok res) →
      res.Decision ≠ Decision.Allow →
      (a.run ctx0 req info handler).metricsEvents =
        [.timer (a.getMetricsHandler AuthorizationScope (namespaceOf req))
          ServiceAuthorizationLatency,
        .counter (a.getMetricsHandler AuthorizationScope (namespaceOf req))
          ServiceErrUnauthorizedCounter 1]) ∧
    (∀ e, (a.run ctx0 req info handler).mapperResult = some (.error e) →
      (a.run ctx0 req info handler).metricsEvents = []) := by
  cases hmp : a.mapPhase ctx0 req info with
  | rejected ai e =>
    rw [run_rejected a ctx0 req info handler ai e hmp]
    exact ⟨fun e' he' => absurd he' (by simp), fun res hres => absurd hres (by simp),
      fun e' _ => rfl⟩
  | proceeded ctx cl calls res =>
    have hres' := mapPhase_proceeded_res a ctx0 req info ctx cl calls res hmp
    have hnoerr : ∀ e, res ≠ some (Except.error e) := by
      intro e he
      rcases hres' with h0 | h0 <;> rw [h0] at he <;> cases he
    cases haz : a.authorizer with
    | none =>
      rw [run_proceeded_noAz a ctx0 req info handler ctx cl calls res hmp haz]
      exact ⟨fun e' he' => absurd he' (by simp),
        fun r hr => absurd hr (by simp), fun e' he' => absurd he' (hnoerr e')⟩
    | some az =>
      cases hazr : az ctx cl
          { Namespace := namespaceOf req, APIName := info.FullMethod,
            Request := req } with
      | error e =>
        rw [run_az_error a ctx0 req info handler ctx cl calls res az e hmp haz hazr]
        refine ⟨fun e' _ => rfl, fun r hr => absurd hr (by simp),
          fun e' he' => absurd he' (hnoerr e')⟩
      | ok result =>
        by_cases hallow : result.Decision = Decision.Allow
        · rw [run_az_allow a ctx0 req info handler ctx cl calls res az result
            hmp haz hazr hallow]
          refine ⟨fun e' he' => absurd he' (by simp), fun r hr hdec => ?_,
            fun e' he' => absurd he' (hnoerr e')⟩
          simp only [Option.some.injEq, Except.ok.injEq] at hr
          rw [← hr] at hdec
          exact absurd hallow hdec
        · rw [run_az_deny a ctx0 req info handler ctx cl calls res az result
            hmp haz hazr hallow]
          exact ⟨fun e' he' => absurd he' (by simp), fun r _ _ => rfl,
            fun e' he' => absurd he' (hnoerr e')⟩

/-- Witness for the amended C4: a concrete authorizer failure records exactly
the latency timer and the authorize-failed counter. -/
theorem metrics_counters_characterization_witness :
    (aFailAz.run hdrCtx plainReq sampleInfo okHandler).metricsEvents =
      [.timer (aFailAz.getMetricsHandler AuthorizationScope (namespaceOf plainReq))
        ServiceAuthorizationLatency,
      .counter (aFailAz.getMetricsHandler AuthorizationScope (namespaceOf plainReq))
        ServiceErrAuthorizeFailedCounter 1] :=
  (metrics_counters_characterization aFailAz hdrCtx plainReq sampleInfo
    okHandler).1 "policy engine crashed" (by decide)

/-- Counterexample to C5 as stated: a verified client certificate and a
configured claim mapper declaring evidence required do NOT suffice for the
mapper to be invoked — with no authorizer configured the whole mapping block
is skipped. -/
theorem mapper_not_invoked_without_authorizer :
    PeerCert (TLSInfoFormContext certCtx) = some sampleCert ∧
    requiredMapper.effAuthInfoRequired = true ∧
    (aNoAz.run certCtx plainReq sampleInfo okHandler).mapperCalls = [] := by
  decide

/-- Claim C5 (amended): for every call carrying a verified client
certificate, when a claim mapper is configured, declares evidence required,
AND an authorizer is configured, the claim mapper is invoked and the
`AuthInfo` it receives has `TLSSubject` set to that certificate's subject. -/
theorem tlsSubject_passed_to_mapper (a : Interceptor) (ctx0 : Context)
    (req : Request) (info : UnaryServerInfo)
    (handler : Context → Request → Option Nat × Option RpcError)
    (cm : ClaimMapper) (az : Authorizer) (cert : Certificate)
    (hcm : a.claimMapper = some cm) (haz : a.authorizer = some az)
    (hreq : cm.effAuthInfoRequired = true)
    (hcert : PeerCert (TLSInfoFormContext ctx0) = some cert) :
    (a.run ctx0 req info handler).mapperCalls = [a.buildAuthInfo ctx0 req info] ∧
    (a.buildAuthInfo ctx0 req info).TLSSubject = some cert.Subject := by
  have hsubj : certSubjectOf ctx0 = some cert.Subject := by
    rw [certSubjectOf, hcert]
    rfl
  refine ⟨?_, hsubj⟩
  rcases mapPhase_cases a ctx0 req info with
    ⟨cm', az', hcm', haz', hs, ⟨e, hg, heq⟩ | ⟨mc, hg, heq⟩⟩ |
    ⟨cm', az', hcm', haz', hs, heq⟩ | ⟨hnone, heq⟩
  · rw [run_rejected a ctx0 req info handler _ e heq]
  · exact (run_proceeded_az_fields a ctx0 req info handler _ mc _ _ az heq haz).1
  · exfalso
    have : a.shouldInvokeMapper cm' ctx0 = true := by
      unfold Interceptor.shouldInvokeMapper
      rw [hsubj]
      rfl
    rw [this] at hs
    cases hs
  · exfalso
    rcases hnone with h0 | h0
    · rw [hcm] at h0
      cases h0
    · rw [haz] at h0
      cases h0

/-- Witness for the amended C5: a concrete mTLS call invokes the mapper with
the certificate's subject. -/
theorem tlsSubject_passed_to_mapper_witness :
    (aDeny.run certCtx plainReq sampleInfo okHandler).mapperCalls =
      [aDeny.buildAuthInfo certCtx plainReq sampleInfo] ∧
    (aDeny.buildAuthInfo certCtx plainReq sampleInfo).TLSSubject =
      some sampleCert.Subject :=
  tlsSubject_passed_to_mapper aDeny certCtx plainReq sampleInfo okHandler
    requiredMapper denyMissing sampleCert rfl rfl (by decide) (by decide)

/-- Counterexample to C8 as stated: a request exposing namespace "ns1" with a
configured authorizer does NOT guarantee the authorizer is invoked — when the
claim mapper fails, the call is rejected first and no namespace-scoped
metrics handle is ever used. -/
theorem authorizer_skipped_on_mapping_failure :
    nsReq.getNamespaceImpl = some "ns1" ∧
    (aFailMap.authorizer).isSome = true ∧
    (aFailMap.run hdrCtx nsReq sampleInfo okHandler).authorizerCalls = [] ∧
    (aFailMap.run hdrCtx nsReq sampleInfo okHandler).metricsEvents = [] := by
  decide

/-- Claim C8 (amended): for every call whose request exposes namespace "ns1",
with an authorizer configured and claim mapping not failing, the authorizer
is invoked with `CallTarget.Namespace = "ns1"` and `APIName` the call's full
method name; every metrics event of the call is scoped with the namespace
tag "ns1"; and in general the unknown-namespace tag is chosen exactly when
the namespace is empty. -/
theorem namespace_target_and_metrics_scope (a : Interceptor) (ctx0 : Context)
    (req : Request) (info : UnaryServerInfo)
    (handler : Context → Request → Option Nat × Option RpcError)
    (az : Authorizer)
    (haz : a.authorizer = some az) (hns : req.getNamespaceImpl = some "ns1")
    (hok : ∀ e, (a.run ctx0 req info handler).mapperResult ≠
      some (.error e)) :
    ((a.run ctx0 req info handler).authorizerCalls.map Prod.snd =
      [{ Namespace := "ns1", APIName := info.FullMethod, Request := req }]) ∧
    (∀ ev ∈ (a.run ctx0 req info handler).metricsEvents,
      ev.tags = a.metricsBaseTags ++
        [.operation AuthorizationScope, .namespaceTag "ns1"]) ∧
    (∀ op nsp, a.getMetricsHandler op nsp =
        a.metricsBaseTags ++ [.operation op, .namespaceUnknown] ↔ nsp = "") := by
  have hnso : namespaceOf req = "ns1" := by
    rw [namespaceOf, hns]
  have hmh : a.getMetricsHandler AuthorizationScope (namespaceOf req) =
      a.metricsBaseTags ++ [.operation AuthorizationScope, .namespaceTag "ns1"] := by
    rw [hnso]
    rfl
  have hunknown : ∀ op nsp, a.getMetricsHandler op nsp =
      a.metricsBaseTags ++ [.operation op, .namespaceUnknown] ↔ nsp = "" := by
    intro op nsp
    by_cases hnsp : nsp = ""
    · subst hnsp
      simp [Interceptor.getMetricsHandler]
    · rw [Interceptor.getMetricsHandler, if_pos hnsp]
      simp only [List.append_cancel_left_eq, hnsp, iff_false]
      intro hlist
      injection hlist with _ htail
      injection htail with hhd _
      cases hhd
  cases hmp : a.mapPhase ctx0 req info with
  | rejected ai e =>
    exfalso
    apply hok e
    rw [run_rejected a ctx0 req info handler ai e hmp]
  | proceeded ctx cl calls res =>
    obtain ⟨_, _, hcalls, htags⟩ :=
      run_proceeded_az_fields a ctx0 req info handler ctx cl calls res az hmp haz
    refine ⟨?_, ?_, hunknown⟩
    · rw [hcalls, hnso]
      rfl
    · intro ev hev
      rw [htags ev hev, hmh]

/-- Witness for the amended C8: a concrete "ns1" call reaches the authorizer
with the right call target. -/
theorem namespace_target_and_metrics_scope_witness :
    (aAllow.run emptyCtx nsReq sampleInfo okHandler).authorizerCalls.map
      Prod.snd =
      [{ Namespace := "ns1", APIName := sampleInfo.FullMethod, Request := nsReq }] := by
  have hok : ∀ e, (aAllow.run emptyCtx nsReq sampleInfo okHandler).mapperResult ≠
      some (.error e) := by
    intro e h
    have hnone : (aAllow.run emptyCtx nsReq sampleInfo okHandler).mapperResult =
        none := by decide
    rw [hnone] at h
    cases h
  exact (namespace_target_and_metrics_scope aAllow emptyCtx nsReq sampleInfo
    okHandler allowAll rfl rfl hok).1

end TemporalAuthz
